import Mathlib

/-!
Verification of the trading-simulation engine and metrics of the
`Group-04` backtesting repository.

The simulation loop of `src/backtest.py` (`algo`, the hybrid strategy) and
`src/optimize.py` (`momentum_algo`, the standalone momentum strategy) is
embedded over `ℚ`.  Indicator computation (MACD / RSI / ATR) is performed by
the external `ta` library and is out of scope; each bar therefore carries its
indicator readings as inputs, `Option ℚ` modelling the leading-NaN warm-up
values (`pd.isna` skips).  The metric functions of `src/utils.py` are embedded
over `ℚ` where they are pure rational arithmetic (`holding_period_returns`,
`maximum_drawdown`, `longest_drawdown`) and over `ℝ` where they involve square
roots (`sharpe_ratio`, `sortino_ratio`).  Fallible metrics return
`Except String _`, mirroring the `raise ValueError` paths.
-/

namespace Group04

/-! ## Constants of `src/utils.py` -/

def ASSET_VALUE : ℚ := 2 * 10 ^ 8

def TAX : ℚ := 0.47

def margin_ratio : ℚ := 0.175

def account_ratio : ℚ := 0.8

def MULTIPLIER : ℚ := 10 ^ 5

/-- `price_multiplier = MULTIPLIER * MARGIN_RATIO / ACCOUNT_RATIO`
(computed at the top of every strategy function). -/
def priceMultiplier : ℚ := MULTIPLIER * margin_ratio / account_ratio

/-! ## Data model -/

/-- Position side, the `pos_type` field: the string `LONG` or `SHORT`. -/
inductive PosType where
  | LONG
  | SHORT
deriving DecidableEq

/-- One open position, the tuple
`(entry_date, pos_type, entry_price, quantity, stop_loss, take_profit)`.
Dates are represented by the bar index `i` of `data.index[i]`. -/
structure Position where
  entryDate : ℕ
  posType : PosType
  entryPrice : ℚ
  quantity : ℤ
  stopLoss : ℚ
  takeProfit : ℚ
deriving DecidableEq

/-- One input bar of the hybrid `algo`: the close price together with the
six indicator readings the loop body reads (`none` = NaN warm-up value). -/
structure Bar where
  close : ℚ
  macdDiffMom : Option ℚ
  rsiMom : Option ℚ
  atrMom : Option ℚ
  macdDiffRev : Option ℚ
  rsiRev : Option ℚ
  atrRev : Option ℚ
deriving DecidableEq

/-- One input bar of the standalone `momentum_algo`. -/
structure MBar where
  close : ℚ
  macdDiff : Option ℚ
  rsi : Option ℚ
  atr : Option ℚ
deriving DecidableEq

/-- The loop-relevant parameters of the hybrid `algo`
(the EMA/RSI/ATR window sizes only feed the external indicator
computation and are not read by the loop body). -/
structure HybridConfig where
  momentumRsiThreshold : ℚ
  momentumAtrMultiplier : ℚ
  reversionAtrMultiplier : ℚ
deriving DecidableEq

/-- The loop-relevant parameters of the standalone `momentum_algo`. -/
structure MomentumConfig where
  rsiThreshold : ℚ
  atrMultiplier : ℚ
deriving DecidableEq

/-- Mutable state of the hybrid `algo` loop: the shared cash pool, the two
per-track holdings lists, and the `(date, Asset)` rows recorded into
`trading_data` on processed bars. -/
structure AlgoState where
  cash : ℚ
  holdingsMomentum : List Position
  holdingsReversion : List Position
  records : List (ℕ × ℚ)
deriving DecidableEq

/-- Mutable state of the standalone `momentum_algo` loop. -/
structure MState where
  cash : ℚ
  holdings : List Position
  records : List (ℕ × ℚ)
deriving DecidableEq

/-! ## Signal conditions

Each named condition is the exact boolean test of the corresponding
source line. -/

/-- Momentum LONG exit: `cur_price >= take_profit or cur_price <= stop_loss
or RSI >= (100 - rsi_threshold) or MACD_diff < 0`. -/
def momLongExitCond (θ p rsi macd sl tp : ℚ) : Bool :=
  decide (tp ≤ p) || decide (p ≤ sl) || decide (100 - θ ≤ rsi) || decide (macd < 0)

/-- Momentum SHORT exit: `cur_price <= take_profit or cur_price >= stop_loss
or RSI <= rsi_threshold or MACD_diff > 0`. -/
def momShortExitCond (θ p rsi macd sl tp : ℚ) : Bool :=
  decide (p ≤ tp) || decide (sl ≤ p) || decide (rsi ≤ θ) || decide (0 < macd)

/-- Reversion LONG exit: `cur_price >= take_profit or cur_price <= stop_loss
or RSI >= 50 or MACD_diff < 0`. -/
def revLongExitCond (p rsi macd sl tp : ℚ) : Bool :=
  decide (tp ≤ p) || decide (p ≤ sl) || decide (50 ≤ rsi) || decide (macd < 0)

/-- Reversion SHORT exit: `cur_price <= take_profit or cur_price >= stop_loss
or RSI >= 50 or MACD_diff > 0`. -/
def revShortExitCond (p rsi macd sl tp : ℚ) : Bool :=
  decide (p ≤ tp) || decide (sl ≤ p) || decide (50 ≤ rsi) || decide (0 < macd)

/-- Momentum LONG entry: `MACD_diff > 0 and 50 < RSI < (100 - rsi_threshold)`. -/
def momLongEntryCond (θ macd rsi : ℚ) : Bool :=
  decide (0 < macd) && decide (50 < rsi) && decide (rsi < 100 - θ)

/-- Momentum SHORT entry: `MACD_diff < 0 and rsi_threshold < RSI < 50`. -/
def momShortEntryCond (θ macd rsi : ℚ) : Bool :=
  decide (macd < 0) && decide (θ < rsi) && decide (rsi < 50)

/-- Reversion LONG entry: `MACD_diff > 0 and RSI < 30`. -/
def revLongEntryCond (macd rsi : ℚ) : Bool :=
  decide (0 < macd) && decide (rsi < 30)

/-- Reversion SHORT entry: `MACD_diff < 0 and RSI > 70`. -/
def revShortEntryCond (macd rsi : ℚ) : Bool :=
  decide (macd < 0) && decide (70 < rsi)

/-! ## Exit phase

The source iterates over a snapshot `holdings[:]` and removes the closed
positions; this is a left fold accumulating the post-exit cash and the kept
positions in order. -/

/-- One step of the momentum exit loop (`backtest.py` lines 91-104,
identical to `optimize.py` lines 83-97). -/
def momExitStep (θ p rsi macd : ℚ) (acc : ℚ × List Position) (pos : Position) :
    ℚ × List Position :=
  match pos.posType with
  | .LONG =>
      if momLongExitCond θ p rsi macd pos.stopLoss pos.takeProfit then
        (acc.1 + pos.quantity * p * priceMultiplier - pos.quantity * TAX * MULTIPLIER, acc.2)
      else (acc.1, acc.2 ++ [pos])
  | .SHORT =>
      if momShortExitCond θ p rsi macd pos.stopLoss pos.takeProfit then
        (acc.1 - (pos.quantity * p * priceMultiplier + pos.quantity * TAX * MULTIPLIER), acc.2)
      else (acc.1, acc.2 ++ [pos])

/-- One step of the reversion exit loop (`backtest.py` lines 107-118). -/
def revExitStep (p rsi macd : ℚ) (acc : ℚ × List Position) (pos : Position) :
    ℚ × List Position :=
  match pos.posType with
  | .LONG =>
      if revLongExitCond p rsi macd pos.stopLoss pos.takeProfit then
        (acc.1 + pos.quantity * p * priceMultiplier - pos.quantity * TAX * MULTIPLIER, acc.2)
      else (acc.1, acc.2 ++ [pos])
  | .SHORT =>
      if revShortExitCond p rsi macd pos.stopLoss pos.takeProfit then
        (acc.1 - (pos.quantity * p * priceMultiplier + pos.quantity * TAX * MULTIPLIER), acc.2)
      else (acc.1, acc.2 ++ [pos])

/-- `# Exit Momentum Positions` loop: returns the post-exit cash and
the remaining holdings. -/
def exitMomentum (θ p rsi macd cash : ℚ) (hol : List Position) : ℚ × List Position :=
  hol.foldl (momExitStep θ p rsi macd) (cash, [])

/-- `# Exit Mean Reversion Positions` loop. -/
def exitReversion (p rsi macd cash : ℚ) (hol : List Position) : ℚ × List Position :=
  hol.foldl (revExitStep p rsi macd) (cash, [])

/-! ## Mark to market and entries -/

/-- `total_unrealized`: signed current notional,
`+cur_price*price_multiplier*quantity` for LONG and
`-cur_price*price_multiplier*quantity` for SHORT, summed over holdings. -/
def markToMarket (p : ℚ) (hol : List Position) : ℚ :=
  (hol.map (fun pos =>
    match pos.posType with
    | .LONG => p * priceMultiplier * pos.quantity
    | .SHORT => -(p * priceMultiplier * pos.quantity))).sum

/-- `# Momentum Entry Logic` of the hybrid `algo` (`backtest.py` lines
127-142). `avail` is the `available_cash = cash / 2` computed before
the momentum entry.  Note: the SHORT quantity is the plain floor,
with no cap. -/
def momentumEntry (cfg : HybridConfig) (i : ℕ) (p macd rsi atr avail cash : ℚ)
    (hol : List Position) : ℚ × List Position :=
  if hol = [] then
    if momLongEntryCond cfg.momentumRsiThreshold macd rsi then
      let q : ℤ := ⌊avail / (p * priceMultiplier)⌋
      if 0 < q then
        (cash - q * p * priceMultiplier,
         hol ++ [⟨i, .LONG, p, q, p - atr * cfg.momentumAtrMultiplier,
                  p + atr * cfg.momentumAtrMultiplier⟩])
      else (cash, hol)
    else if momShortEntryCond cfg.momentumRsiThreshold macd rsi then
      let q : ℤ := ⌊avail / (p * priceMultiplier)⌋
      if 0 < q then
        (cash + q * p * priceMultiplier,
         hol ++ [⟨i, .SHORT, p, q, p + atr * cfg.momentumAtrMultiplier,
                  p - atr * cfg.momentumAtrMultiplier⟩])
      else (cash, hol)
    else (cash, hol)
  else (cash, hol)

/-- `# Mean Reversion Entry Logic` of the hybrid `algo` (`backtest.py`
lines 145-159).  The SHORT quantity is capped: `min(floor(...), 3)`. -/
def reversionEntry (cfg : HybridConfig) (i : ℕ) (p macd rsi atr avail cash : ℚ)
    (hol : List Position) : ℚ × List Position :=
  if hol = [] then
    if revLongEntryCond macd rsi then
      let q : ℤ := ⌊avail / (p * priceMultiplier)⌋
      if 0 < q then
        (cash - q * p * priceMultiplier,
         hol ++ [⟨i, .LONG, p, q, p - atr * cfg.reversionAtrMultiplier,
                  p + atr * cfg.reversionAtrMultiplier⟩])
      else (cash, hol)
    else if revShortEntryCond macd rsi then
      let q : ℤ := min ⌊avail / (p * priceMultiplier)⌋ 3
      if 0 < q then
        (cash + q * p * priceMultiplier,
         hol ++ [⟨i, .SHORT, p, q, p + atr * cfg.reversionAtrMultiplier,
                  p - atr * cfg.reversionAtrMultiplier⟩])
      else (cash, hol)
    else (cash, hol)
  else (cash, hol)

/-- Entry logic of the standalone `momentum_algo` (`optimize.py` lines
108-128): here the SHORT quantity is capped, `min(floor((cash/2)/...), 3)`. -/
def momentumEntryStandalone (cfg : MomentumConfig) (i : ℕ) (p macd rsi atr cash : ℚ)
    (hol : List Position) : ℚ × List Position :=
  if hol = [] then
    if momLongEntryCond cfg.rsiThreshold macd rsi then
      let q : ℤ := ⌊(cash / 2) / (p * priceMultiplier)⌋
      if 0 < q then
        (cash - q * p * priceMultiplier,
         hol ++ [⟨i, .LONG, p, q, p - atr * cfg.atrMultiplier, p + atr * cfg.atrMultiplier⟩])
      else (cash, hol)
    else if momShortEntryCond cfg.rsiThreshold macd rsi then
      let q : ℤ := min ⌊(cash / 2) / (p * priceMultiplier)⌋ 3
      if 0 < q then
        (cash + q * p * priceMultiplier,
         hol ++ [⟨i, .SHORT, p, q, p + atr * cfg.atrMultiplier, p - atr * cfg.atrMultiplier⟩])
      else (cash, hol)
    else (cash, hol)
  else (cash, hol)

/-! ## Per-bar processing and the run -/

/-- Body of the hybrid `algo` loop for a bar whose six indicator readings
are all defined: exits on both tracks, asset-value recording, then entries.
`available_cash = cash / 2` is computed once, before the momentum entry, and
also used (stale) by the reversion entry — exactly as in the source. -/
def processBarCore (cfg : HybridConfig) (s : AlgoState) (i : ℕ)
    (p mdm rm am mdr rr ar : ℚ) : AlgoState :=
  let em := exitMomentum cfg.momentumRsiThreshold p rm mdm s.cash s.holdingsMomentum
  let er := exitReversion p rr mdr em.1 s.holdingsReversion
  let assetVal := er.1 + markToMarket p (em.2 ++ er.2)
  let avail := er.1 / 2
  let me := momentumEntry cfg i p mdm rm am avail er.1 em.2
  let re := reversionEntry cfg i p mdr rr ar avail me.1 er.2
  ⟨re.1, me.2, re.2, s.records ++ [(i, assetVal)]⟩

/-- One iteration of the hybrid `algo` loop: bars with any NaN indicator
are skipped (`continue`). -/
def processBar (cfg : HybridConfig) (s : AlgoState) (i : ℕ) (b : Bar) : AlgoState :=
  match b.macdDiffMom, b.rsiMom, b.atrMom, b.macdDiffRev, b.rsiRev, b.atrRev with
  | some mdm, some rm, some am, some mdr, some rr, some ar =>
      processBarCore cfg s i b.close mdm rm am mdr rr ar
  | _, _, _, _, _, _ => s

/-- Initial state: `cash = ASSET_VALUE`, both holdings lists empty,
no rows recorded yet. -/
def initState : AlgoState := ⟨ASSET_VALUE, [], [], []⟩

/-- The hybrid `algo` simulation: `for i in range(1, len(data))`, i.e. all
bars except index 0 are processed. -/
def algoRun (cfg : HybridConfig) (bars : List Bar) : AlgoState :=
  bars.enum.foldl (fun s ib => if ib.1 = 0 then s else processBar cfg s ib.1 ib.2) initState

/-- Body of the standalone `momentum_algo` loop for a defined bar:
the single exit loop, asset-value recording, then the entry logic. -/
def processBarMCore (cfg : MomentumConfig) (s : MState) (i : ℕ)
    (p macd rsi atr : ℚ) : MState :=
  let ex := exitMomentum cfg.rsiThreshold p rsi macd s.cash s.holdings
  let assetVal := ex.1 + markToMarket p ex.2
  let en := momentumEntryStandalone cfg i p macd rsi atr ex.1 ex.2
  ⟨en.1, en.2, s.records ++ [(i, assetVal)]⟩

/-- One iteration of the standalone `momentum_algo` loop. -/
def processBarM (cfg : MomentumConfig) (s : MState) (i : ℕ) (b : MBar) : MState :=
  match b.macdDiff, b.rsi, b.atr with
  | some macd, some rsi, some atr => processBarMCore cfg s i b.close macd rsi atr
  | _, _, _ => s

/-- The standalone `momentum_algo` simulation. -/
def momentumAlgoRun (cfg : MomentumConfig) (bars : List MBar) : MState :=
  bars.enum.foldl (fun s ib => if ib.1 = 0 then s else processBarM cfg s ib.1 ib.2)
    ⟨ASSET_VALUE, [], []⟩

/-! ## Output table

`trading_data['Asset']` is prefilled with the initial cash and overwritten
on processed bars; `trading_data['Return']` is `pct_change` of the asset
column (NaN at the first row). -/

/-- The `Asset` column of the output table. -/
def assetColumn (cfg : HybridConfig) (bars : List Bar) : List ℚ :=
  (List.range bars.length).map
    (fun i => (((algoRun cfg bars).records).lookup i).getD ASSET_VALUE)

/-- `pct_change`: `none` at the first row, then `cur / prev - 1`. -/
def pctChange (l : List ℚ) : List (Option ℚ) :=
  match l with
  | [] => []
  | x :: xs => none :: List.zipWith (fun prev cur => some (cur / prev - 1)) (x :: xs) xs

/-- The output table of `algo`: the `Asset` column and the `Return` column. -/
def outputTable (cfg : HybridConfig) (bars : List Bar) : List ℚ × List (Option ℚ) :=
  (assetColumn cfg bars, pctChange (assetColumn cfg bars))

/-! ## Metrics (`src/utils.py`)

The `Return` column is a list of `Option`; `dropna` keeps the defined
entries.  Python's `round(x, 6)` (round half to even, 6 decimals) is
modelled exactly. -/

/-- `Series.dropna`. -/
def dropNa {α : Type} (l : List (Option α)) : List α := l.filterMap id

/-- Rounding to the nearest integer, ties to even (Python `round`). -/
def roundHalfToEven (q : ℚ) : ℤ :=
  if q - ⌊q⌋ < 1/2 then ⌊q⌋
  else if 1/2 < q - ⌊q⌋ then ⌊q⌋ + 1
  else if ⌊q⌋ % 2 = 0 then ⌊q⌋ else ⌊q⌋ + 1

/-- Python `round(x, 6)`. -/
def round6 (q : ℚ) : ℚ := roundHalfToEven (q * 10 ^ 6) / 10 ^ 6

/-- Whether an `Except` computation returned normally. -/
def exceptOk {ε α : Type} : Except ε α → Bool
  | .ok _ => true
  | .error _ => false

/-- `holding_period_returns`: `(iloc[-1] / iloc[0] - 1) * 100`, rounded to
6 decimals.  `iloc` on an empty column is the only failure path. -/
def holdingPeriodReturns (assets : List ℚ) : Except String ℚ :=
  if h : assets = [] then .error "single positional indexer is out-of-bounds"
  else .ok (round6 ((assets.getLast h / assets.head h - 1) * 100))

/-- The compounding loop of `maximum_drawdown`:
`cur_asset *= (1 + val); peak = max(peak, cur_asset);
mdd = min(mdd, -(1 - cur_asset / peak))`. -/
def mddLoop : List ℚ → ℚ → ℚ → ℚ → ℚ
  | [], _, _, mdd => mdd
  | v :: vs, cur, peak, mdd =>
      let cur' := cur * (1 + v)
      let peak' := max peak cur'
      mddLoop vs cur' peak' (min mdd (-(1 - cur' / peak')))

/-- `maximum_drawdown`: fails on an empty dropped return series and on a
period return equal to `-1`; otherwise the compounded drawdown · 100,
rounded to 6 decimals. -/
def maximumDrawdown (returns : List (Option ℚ)) : Except String ℚ :=
  if dropNa returns = [] then .error "Period returns is empty"
  else if (-1 : ℚ) ∈ dropNa returns then .error "All capital of the portfolio is lost"
  else .ok (round6 (mddLoop (dropNa returns) 1 1 0 * 100))

/-- The counting loop of `longest_drawdown`: on `cur_asset >= peak` the
peak is renewed and the run counter reset, otherwise the counter grows;
the result is the maximal counter value (including the final run). -/
def lddLoop : List ℚ → ℚ → ℚ → ℕ → ℕ → ℕ
  | [], _, _, count, ldd => max ldd count
  | v :: vs, cur, peak, count, ldd =>
      let cur' := cur * (1 + v)
      if peak ≤ cur' then lddLoop vs cur' cur' 0 (max ldd count)
      else lddLoop vs cur' peak (count + 1) ldd

/-- `longest_drawdown`: same failure conditions as `maximum_drawdown`. -/
def longestDrawdown (returns : List (Option ℚ)) : Except String ℕ :=
  if dropNa returns = [] then .error "Period returns is empty"
  else if (-1 : ℚ) ∈ dropNa returns then .error "All capital of the portfolio is lost"
  else .ok (lddLoop (dropNa returns) 1 1 0 0)

section RealMetrics

open scoped Classical

/-- Arithmetic mean of a list of reals (`np.mean`; on a pandas series it
skips NaN, hence it is applied to the dropped list). -/
noncomputable def listMeanR (l : List ℝ) : ℝ := l.sum / l.length

/-- Rounding to the nearest integer, ties to even, over `ℝ`. -/
noncomputable def roundHalfToEvenR (x : ℝ) : ℤ :=
  if x - ⌊x⌋ < 1/2 then ⌊x⌋
  else if 1/2 < x - ⌊x⌋ then ⌊x⌋ + 1
  else if ⌊x⌋ % 2 = 0 then ⌊x⌋ else ⌊x⌋ + 1

/-- Python `round(x, 6)` over `ℝ`. -/
noncomputable def round6R (x : ℝ) : ℝ := roundHalfToEvenR (x * 10 ^ 6) / 10 ^ 6

/-- `np.std(l, ddof=1)`: square root of the sample variance. -/
noncomputable def sampleStd (l : List ℝ) : ℝ :=
  Real.sqrt (((l.map (fun x => (x - listMeanR l) ^ 2)).sum) / (l.length - 1))

/-- `sharpe_ratio`: fails only on an empty dropped return series; returns 0
when the sample standard deviation is 0, otherwise
`(252 * mean - risk_free_return) / (sqrt(252) * std)` rounded to 6 decimals. -/
noncomputable def sharpeRatio (rfr : ℝ) (returns : List (Option ℝ)) : Except String ℝ :=
  if dropNa returns = [] then .error "Period returns is empty"
  else
    if sampleStd (dropNa returns) = 0 then .ok 0
    else .ok (round6R ((252 * listMeanR (dropNa returns) - rfr) /
      (Real.sqrt 252 * sampleStd (dropNa returns))))

/-- The downside risk of `sortino_ratio`:
`sqrt(mean(0 if val > risk_free_return else (val - risk_free_return)**2))`. -/
noncomputable def downsideRisk (rfr : ℝ) (rets : List ℝ) : ℝ :=
  Real.sqrt (listMeanR (rets.map (fun v => if rfr < v then 0 else (v - rfr) ^ 2)))

/-- `sortino_ratio`: fails only on an empty dropped return series; returns 0
when the downside risk is 0, otherwise
`(sqrt(252) * mean - risk_free_return) / downside_risk` rounded to 6 decimals. -/
noncomputable def sortinoRatio (rfr : ℝ) (returns : List (Option ℝ)) : Except String ℝ :=
  if dropNa returns = [] then .error "Period returns is empty"
  else
    if downsideRisk rfr (dropNa returns) = 0 then .ok 0
    else .ok (round6R ((Real.sqrt 252 * listMeanR (dropNa returns) - rfr) /
      downsideRisk rfr (dropNa returns)))

/-- Modelled from the spec: the Sortino ratio as §4.5 states it, with the
downside deviation written `sqrt(mean(min(0, r − risk_free_rate)^2))`.
Structured exactly as the spec sentence: fails on an empty series, returns 0
on zero downside deviation, otherwise the stated ratio (with the same
6-decimal output rounding every ratio metric applies). -/
noncomputable def sortinoRatioSpec (rfr : ℝ) (returns : List (Option ℝ)) : Except String ℝ :=
  if dropNa returns = [] then .error "Period returns is empty"
  else
    let dd := Real.sqrt (listMeanR ((dropNa returns).map (fun r => (min 0 (r - rfr)) ^ 2)))
    if dd = 0 then .ok 0
    else .ok (round6R ((Real.sqrt 252 * listMeanR (dropNa returns) - rfr) / dd))

end RealMetrics

/-! ## Helper lemmas -/

lemma round6_zero : round6 0 = 0 := by
  norm_num [round6, roundHalfToEven]

lemma dropNa_none {α : Type} (l : List (Option α)) : dropNa (none :: l) = dropNa l := by
  simp [dropNa]

lemma dropNa_replicate_some (n : ℕ) (a : ℚ) :
    dropNa (List.replicate n (some a)) = List.replicate n a := by
  induction n with
  | zero => simp [dropNa]
  | succ k ih => simp [List.replicate_succ, dropNa, List.filterMap_cons] at ih ⊢

lemma lddLoop_zeros (n : ℕ) : lddLoop (List.replicate n 0) 1 1 0 0 = 0 := by
  induction n with
  | zero => simp [lddLoop]
  | succ k ih =>
      rw [List.replicate_succ, lddLoop]
      norm_num
      exact ih

lemma dropNa_flat3 : dropNa [none, some (0 : ℚ), some 0, some 0] = [0, 0, 0] := by
  simp [dropNa]

/-! ## Claims C5, C6, C7, C9, C10 -/

/-- C5 (counterexample): for the all-zero dropped return series
`[0, 0, 0]` (a flat asset series), `longest_drawdown` returns `0`,
not the full series length `3` as the claim states: with the source's
`cur_asset >= peak` comparison a flat bar renews the peak and resets the
drawdown counter. -/
theorem ldd_flat_counterexample :
    longestDrawdown [none, some 0, some 0, some 0] = .ok 0 ∧
    longestDrawdown [none, some 0, some 0, some 0] ≠ .ok 3 := by
  rw [longestDrawdown, dropNa_flat3]
  rw [if_neg (by simp), if_neg (by norm_num)]
  norm_num [lddLoop]

/-- C5 (amended): for every return series that is all zeros after dropping
the leading undefined value, `longest_drawdown` returns `0`: every period
counts as reaching a new peak, because the comparison `cur_asset >= peak`
treats equality as a renewed peak. -/
theorem ldd_flat (n : ℕ) (h : 0 < n) :
    longestDrawdown (none :: List.replicate n (some (0 : ℚ))) = .ok 0 := by
  unfold longestDrawdown
  rw [dropNa_none, dropNa_replicate_some]
  rw [if_neg, if_neg]
  · rw [lddLoop_zeros]
  · intro hmem
    rw [List.mem_replicate] at hmem
    norm_num at hmem
  · simp [List.replicate_eq_nil_iff]
    omega

theorem ldd_flat_witness :
    0 < 3 ∧ longestDrawdown (none :: List.replicate 3 (some (0 : ℚ))) = .ok 0 :=
  ⟨by norm_num, ldd_flat 3 (by norm_num)⟩

/-- C6: `maximum_drawdown` and `longest_drawdown` fail exactly on a dropped
return series that is empty or contains `-1`; `sharpe_ratio` and
`sortino_ratio` fail exactly on an empty dropped series (so the
total-capital-loss error is raised by the two drawdown metrics only). -/
theorem metric_error_conditions (returns : List (Option ℚ)) (rrets : List (Option ℝ)) (rfr : ℝ) :
    (exceptOk (maximumDrawdown returns) = true ↔
      dropNa returns ≠ [] ∧ (-1 : ℚ) ∉ dropNa returns) ∧
    (exceptOk (longestDrawdown returns) = true ↔
      dropNa returns ≠ [] ∧ (-1 : ℚ) ∉ dropNa returns) ∧
    (exceptOk (sharpeRatio rfr rrets) = true ↔ dropNa rrets ≠ []) ∧
    (exceptOk (sortinoRatio rfr rrets) = true ↔ dropNa rrets ≠ []) := by
  refine ⟨?_, ?_, ?_, ?_⟩
  · unfold maximumDrawdown; split_ifs <;> simp_all [exceptOk]
  · unfold longestDrawdown; split_ifs <;> simp_all [exceptOk]
  · unfold sharpeRatio; split_ifs <;> simp_all [exceptOk]
  · unfold sortinoRatio; split_ifs <;> simp_all [exceptOk]

/-- C7: `sortino_ratio` computes exactly the spec's formula: downside
deviation `sqrt(mean(min(0, r − risk_free_rate)^2))` (the source's
`0 if val > rfr else (val - rfr)**2` branch equals `min(0, r - rfr)^2`),
ratio `(sqrt(252)·mean(returns) − rfr) / downside_deviation` (with the
6-decimal output rounding all ratio metrics apply), `0` on zero downside
deviation, failure on an empty dropped series.  The per-period returns are
compared against the annual rate `rfr` itself, with no de-annualization. -/
theorem sortino_matches_spec (rfr : ℝ) (returns : List (Option ℝ)) :
    sortinoRatio rfr returns = sortinoRatioSpec rfr returns := by
  have hfun : (fun v : ℝ => if rfr < v then 0 else (v - rfr) ^ 2) =
      (fun r : ℝ => (min 0 (r - rfr)) ^ 2) := by
    funext v
    by_cases h : rfr < v
    · rw [if_pos h, min_eq_left (by linarith : (0 : ℝ) ≤ v - rfr)]
      norm_num
    · rw [if_neg h, min_eq_right (by linarith : v - rfr ≤ (0 : ℝ))]
  unfold sortinoRatio sortinoRatioSpec downsideRisk
  rw [hfun]

/-- C9: the simulation is deterministic — two runs of `algo` on an identical
input table and identical configuration produce identical output tables
(the asset-value and return series coincide). -/
theorem run_deterministic (cfg cfg2 : HybridConfig) (bars bars2 : List Bar)
    (hc : cfg = cfg2) (hb : bars = bars2) :
    outputTable cfg bars = outputTable cfg2 bars2 := by
  subst hc; subst hb; rfl

theorem run_deterministic_witness :
    ((⟨30, 2, 2⟩ : HybridConfig) = ⟨30, 2, 2⟩ ∧ ([] : List Bar) = []) ∧
    outputTable ⟨30, 2, 2⟩ [] = outputTable ⟨30, 2, 2⟩ [] :=
  ⟨⟨rfl, rfl⟩, run_deterministic _ _ _ _ rfl rfl⟩

/-- C10: on every non-empty asset column `holding_period_returns` returns
`(final/initial − 1)·100` rounded to 6 decimals and never raises the
degenerate-series error; on a single-row table (with the nonzero initial
capital) it returns 0. -/
theorem hpr_total (assets : List ℚ) (h : assets ≠ []) (a : ℚ) (ha : a ≠ 0) :
    holdingPeriodReturns assets =
      .ok (round6 ((assets.getLast h / assets.head h - 1) * 100)) ∧
    holdingPeriodReturns [a] = .ok 0 := by
  constructor
  · simp [holdingPeriodReturns, h]
  · have : a / a = 1 := div_self ha
    simp [holdingPeriodReturns, this, round6_zero]

theorem hpr_total_witness :
    (([1, 2] : List ℚ) ≠ [] ∧ (5 : ℚ) ≠ 0) ∧
    (holdingPeriodReturns [1, 2] =
      .ok (round6 ((([1, 2] : List ℚ).getLast (by simp) / ([1, 2] : List ℚ).head (by simp) - 1) * 100)) ∧
     holdingPeriodReturns [5] = .ok 0) :=
  ⟨⟨by simp, by norm_num⟩, hpr_total [1, 2] (by simp) 5 (by norm_num)⟩

/-! ## Claim C8: at most one open position per track -/

lemma momExitStep_len (θ p rsi macd : ℚ) (acc : ℚ × List Position) (pos : Position) :
    (momExitStep θ p rsi macd acc pos).2.length ≤ acc.2.length + 1 := by
  unfold momExitStep
  rcases pos with ⟨d, ty, ep, q, sl, tp⟩
  cases ty <;> dsimp <;> split_ifs <;> simp

lemma revExitStep_len (p rsi macd : ℚ) (acc : ℚ × List Position) (pos : Position) :
    (revExitStep p rsi macd acc pos).2.length ≤ acc.2.length + 1 := by
  unfold revExitStep
  rcases pos with ⟨d, ty, ep, q, sl, tp⟩
  cases ty <;> dsimp <;> split_ifs <;> simp

lemma foldl_exit_len {f : ℚ × List Position → Position → ℚ × List Position}
    (hf : ∀ acc pos, (f acc pos).2.length ≤ acc.2.length + 1) :
    ∀ (hol : List Position) (acc : ℚ × List Position),
      (hol.foldl f acc).2.length ≤ acc.2.length + hol.length := by
  intro hol
  induction hol with
  | nil => intro acc; simp
  | cons pos rest ih =>
      intro acc
      rw [List.foldl_cons]
      have h1 := ih (f acc pos)
      have h2 := hf acc pos
      simp only [List.length_cons]
      omega

lemma exitMomentum_len (θ p rsi macd cash : ℚ) (hol : List Position) :
    (exitMomentum θ p rsi macd cash hol).2.length ≤ hol.length := by
  have := foldl_exit_len (momExitStep_len θ p rsi macd) hol (cash, [])
  simpa [exitMomentum] using this

lemma exitReversion_len (p rsi macd cash : ℚ) (hol : List Position) :
    (exitReversion p rsi macd cash hol).2.length ≤ hol.length := by
  have := foldl_exit_len (revExitStep_len p rsi macd) hol (cash, [])
  simpa [exitReversion] using this

lemma momentumEntry_len (cfg : HybridConfig) (i : ℕ) (p macd rsi atr avail cash : ℚ)
    (hol : List Position) (h : hol.length ≤ 1) :
    (momentumEntry cfg i p macd rsi atr avail cash hol).2.length ≤ 1 := by
  unfold momentumEntry
  split_ifs <;> try simp_all
  all_goals (split <;> simp)

lemma reversionEntry_len (cfg : HybridConfig) (i : ℕ) (p macd rsi atr avail cash : ℚ)
    (hol : List Position) (h : hol.length ≤ 1) :
    (reversionEntry cfg i p macd rsi atr avail cash hol).2.length ≤ 1 := by
  unfold reversionEntry
  split_ifs <;> try simp_all
  all_goals (split <;> simp)

lemma momentumEntryStandalone_len (cfg : MomentumConfig) (i : ℕ) (p macd rsi atr cash : ℚ)
    (hol : List Position) (h : hol.length ≤ 1) :
    (momentumEntryStandalone cfg i p macd rsi atr cash hol).2.length ≤ 1 := by
  unfold momentumEntryStandalone
  split_ifs <;> try simp_all
  all_goals (split <;> simp)

lemma processBarCore_len (cfg : HybridConfig) (s : AlgoState) (i : ℕ)
    (p mdm rm am mdr rr ar : ℚ)
    (hM : s.holdingsMomentum.length ≤ 1) (hR : s.holdingsReversion.length ≤ 1) :
    (processBarCore cfg s i p mdm rm am mdr rr ar).holdingsMomentum.length ≤ 1 ∧
    (processBarCore cfg s i p mdm rm am mdr rr ar).holdingsReversion.length ≤ 1 := by
  unfold processBarCore
  constructor
  · exact momentumEntry_len _ _ _ _ _ _ _ _ _
      (le_trans (exitMomentum_len _ _ _ _ _ _) hM)
  · exact reversionEntry_len _ _ _ _ _ _ _ _ _
      (le_trans (exitReversion_len _ _ _ _ _) hR)

lemma processBar_len (cfg : HybridConfig) (s : AlgoState) (i : ℕ) (b : Bar)
    (hM : s.holdingsMomentum.length ≤ 1) (hR : s.holdingsReversion.length ≤ 1) :
    (processBar cfg s i b).holdingsMomentum.length ≤ 1 ∧
    (processBar cfg s i b).holdingsReversion.length ≤ 1 := by
  unfold processBar
  cases b.macdDiffMom <;> cases b.rsiMom <;> cases b.atrMom <;>
    cases b.macdDiffRev <;> cases b.rsiRev <;> cases b.atrRev <;>
    first
      | exact ⟨hM, hR⟩
      | exact processBarCore_len _ _ _ _ _ _ _ _ _ _ hM hR

lemma processBarMCore_len (cfg : MomentumConfig) (s : MState) (i : ℕ)
    (p macd rsi atr : ℚ) (h : s.holdings.length ≤ 1) :
    (processBarMCore cfg s i p macd rsi atr).holdings.length ≤ 1 := by
  unfold processBarMCore
  exact momentumEntryStandalone_len _ _ _ _ _ _ _ _
    (le_trans (exitMomentum_len _ _ _ _ _ _) h)

lemma processBarM_len (cfg : MomentumConfig) (s : MState) (i : ℕ) (b : MBar)
    (h : s.holdings.length ≤ 1) :
    (processBarM cfg s i b).holdings.length ≤ 1 := by
  unfold processBarM
  cases b.macdDiff <;> cases b.rsi <;> cases b.atr <;>
    first
      | exact h
      | exact processBarMCore_len _ _ _ _ _ _ _ h

lemma foldl_inv {σ α : Type} (P : σ → Prop) (f : σ → α → σ)
    (hstep : ∀ s a, P s → P (f s a)) :
    ∀ (l : List α) (s : σ), P s → P (l.foldl f s) := by
  intro l
  induction l with
  | nil => intro s hs; simpa using hs
  | cons a rest ih =>
      intro s hs
      rw [List.foldl_cons]
      exact ih _ (hstep _ _ hs)

/-- C8: every strategy track holds at most one open position on every state
reachable by the per-bar loop (for any input bars): entries are gated on an
empty track and exits only remove positions.  Proved for the hybrid `algo`
(both tracks) and the standalone `momentum_algo`. -/
theorem single_position_invariant (cfg : HybridConfig) (bars : List Bar)
    (cfgM : MomentumConfig) (mbars : List MBar) :
    (algoRun cfg bars).holdingsMomentum.length ≤ 1 ∧
    (algoRun cfg bars).holdingsReversion.length ≤ 1 ∧
    (momentumAlgoRun cfgM mbars).holdings.length ≤ 1 := by
  have h1 := foldl_inv
    (fun s : AlgoState => s.holdingsMomentum.length ≤ 1 ∧ s.holdingsReversion.length ≤ 1)
    (fun s ib => if ib.1 = 0 then s else processBar cfg s ib.1 ib.2)
    (by
      intro s ib hs
      by_cases h : ib.1 = 0
      · simpa [h] using hs
      · simpa [h] using processBar_len cfg s ib.1 ib.2 hs.1 hs.2)
    bars.enum initState (by simp [initState])
  have h2 := foldl_inv
    (fun s : MState => s.holdings.length ≤ 1)
    (fun s ib => if ib.1 = 0 then s else processBarM cfgM s ib.1 ib.2)
    (by
      intro s ib hs
      by_cases h : ib.1 = 0
      · simpa [h] using hs
      · simpa [h] using processBarM_len cfgM s ib.1 ib.2 hs)
    mbars.enum ⟨ASSET_VALUE, [], []⟩ (by simp)
  exact ⟨h1.1, h1.2, h2⟩

/-! ## Claim C2: asset-value conservation -/

lemma markToMarket_append (p : ℚ) (l1 l2 : List Position) :
    markToMarket p (l1 ++ l2) = markToMarket p l1 + markToMarket p l2 := by
  simp [markToMarket]

lemma momentumEntry_conserve (cfg : HybridConfig) (i : ℕ) (p macd rsi atr avail cash : ℚ)
    (hol : List Position) :
    (momentumEntry cfg i p macd rsi atr avail cash hol).1 +
      markToMarket p (momentumEntry cfg i p macd rsi atr avail cash hol).2 =
    cash + markToMarket p hol := by
  unfold momentumEntry
  split_ifs <;> try rfl
  all_goals dsimp only
  all_goals (split <;> (simp_all [markToMarket]; try ring))

lemma reversionEntry_conserve (cfg : HybridConfig) (i : ℕ) (p macd rsi atr avail cash : ℚ)
    (hol : List Position) :
    (reversionEntry cfg i p macd rsi atr avail cash hol).1 +
      markToMarket p (reversionEntry cfg i p macd rsi atr avail cash hol).2 =
    cash + markToMarket p hol := by
  unfold reversionEntry
  split_ifs <;> try rfl
  all_goals dsimp only
  all_goals (split <;> (simp_all [markToMarket]; try ring))

/-- C2: on every processed bar (all six indicator readings defined) the
asset value recorded into the output series equals cash plus the sum of
signed current notionals over all open positions on both tracks — stated
here for the end-of-bar state, which is the non-trivial direction: the
recording happens after exits but before entries, and each entry moves cash
by exactly the notional of the position it creates, so the recorded value
also equals post-entry cash plus post-entry mark-to-market. -/
theorem asset_value_conservation (cfg : HybridConfig) (s : AlgoState) (i : ℕ) (b : Bar)
    (mdm rm am mdr rr ar : ℚ)
    (h1 : b.macdDiffMom = some mdm) (h2 : b.rsiMom = some rm) (h3 : b.atrMom = some am)
    (h4 : b.macdDiffRev = some mdr) (h5 : b.rsiRev = some rr) (h6 : b.atrRev = some ar) :
    (processBar cfg s i b).records =
      s.records ++ [(i, (processBar cfg s i b).cash +
        markToMarket b.close ((processBar cfg s i b).holdingsMomentum ++
          (processBar cfg s i b).holdingsReversion))] := by
  simp only [processBar, h1, h2, h3, h4, h5, h6]
  unfold processBarCore
  set em := exitMomentum cfg.momentumRsiThreshold b.close rm mdm s.cash s.holdingsMomentum with hem
  set er := exitReversion b.close rr mdr em.1 s.holdingsReversion with her
  set me := momentumEntry cfg i b.close mdm rm am (er.1 / 2) er.1 em.2 with hme
  set re := reversionEntry cfg i b.close mdr rr ar (er.1 / 2) me.1 er.2 with hre
  simp only [List.append_cancel_left_eq, List.cons.injEq, Prod.mk.injEq, and_true, true_and]
  have hm := momentumEntry_conserve cfg i b.close mdm rm am (er.1 / 2) er.1 em.2
  have hr := reversionEntry_conserve cfg i b.close mdr rr ar (er.1 / 2) me.1 er.2
  rw [markToMarket_append, markToMarket_append]
  rw [← hme] at hm
  rw [← hre] at hr
  linarith [hm, hr]

theorem asset_value_conservation_witness :
    ((⟨450, some (-1), some 40, some 1, some 1, some 50, some 1⟩ : Bar).macdDiffMom = some (-1) ∧
     (⟨450, some (-1), some 40, some 1, some 1, some 50, some 1⟩ : Bar).rsiMom = some 40 ∧
     (⟨450, some (-1), some 40, some 1, some 1, some 50, some 1⟩ : Bar).atrMom = some 1 ∧
     (⟨450, some (-1), some 40, some 1, some 1, some 50, some 1⟩ : Bar).macdDiffRev = some 1 ∧
     (⟨450, some (-1), some 40, some 1, some 1, some 50, some 1⟩ : Bar).rsiRev = some 50 ∧
     (⟨450, some (-1), some 40, some 1, some 1, some 50, some 1⟩ : Bar).atrRev = some 1) ∧
    (processBar ⟨30, 2, 2⟩ initState 1 ⟨450, some (-1), some 40, some 1, some 1, some 50, some 1⟩).records =
      initState.records ++ [(1,
        (processBar ⟨30, 2, 2⟩ initState 1 ⟨450, some (-1), some 40, some 1, some 1, some 50, some 1⟩).cash +
        markToMarket (450 : ℚ)
          ((processBar ⟨30, 2, 2⟩ initState 1 ⟨450, some (-1), some 40, some 1, some 1, some 50, some 1⟩).holdingsMomentum ++
           (processBar ⟨30, 2, 2⟩ initState 1 ⟨450, some (-1), some 40, some 1, some 1, some 50, some 1⟩).holdingsReversion))] :=
  ⟨⟨rfl, rfl, rfl, rfl, rfl, rfl⟩,
    asset_value_conservation ⟨30, 2, 2⟩ initState 1 _ (-1) 40 1 1 50 1 rfl rfl rfl rfl rfl rfl⟩

/-! ## Claim C1: the SHORT-side cap -/

lemma momShort_not_long (θ macd rsi : ℚ) (h : momShortEntryCond θ macd rsi = true) :
    momLongEntryCond θ macd rsi = false := by
  simp only [momShortEntryCond, Bool.and_eq_true, decide_eq_true_eq] at h
  rw [Bool.eq_false_iff]
  intro hc
  simp only [momLongEntryCond, Bool.and_eq_true, decide_eq_true_eq] at hc
  linarith [h.1.1, hc.1.1]

lemma revShort_not_long (macd rsi : ℚ) (h : revShortEntryCond macd rsi = true) :
    revLongEntryCond macd rsi = false := by
  simp only [revShortEntryCond, Bool.and_eq_true, decide_eq_true_eq] at h
  rw [Bool.eq_false_iff]
  intro hc
  simp only [revLongEntryCond, Bool.and_eq_true, decide_eq_true_eq] at hc
  linarith [h.1, hc.1]

/-- C1 (counterexample): in the hybrid `algo`, a momentum-track SHORT entry
with capital affording 10 contracts opens a position of quantity 10, not
`min(floor(available/(price·price_multiplier)), 3) = 3`: the momentum-track
SHORT entry of `backtest.py` has no cap of 3, so the claim fails for that
strategy variant. -/
theorem short_cap_counterexample :
    (algoRun ⟨30, 2, 2⟩
      [⟨400, none, none, none, none, none, none⟩,
       ⟨450, some (-1), some 40, some 1, some 1, some 50, some 1⟩]).holdingsMomentum.map
        (fun pos => (pos.posType, pos.quantity)) = [(PosType.SHORT, 10)] ∧
    ⌊(ASSET_VALUE / 2) / (450 * priceMultiplier)⌋ = 10 ∧
    min ⌊(ASSET_VALUE / 2) / (450 * priceMultiplier)⌋ 3 = 3 ∧ (10 : ℤ) ≠ 3 := by
  refine ⟨?_, ?_, ?_, by norm_num⟩
  · norm_num [algoRun, List.enum, List.enumFrom, processBar, processBarCore, exitMomentum,
      exitReversion, markToMarket, momentumEntry, reversionEntry, initState, ASSET_VALUE,
      momLongEntryCond, momShortEntryCond, revLongEntryCond, revShortEntryCond,
      priceMultiplier, MULTIPLIER, margin_ratio, account_ratio]
  · norm_num [ASSET_VALUE, priceMultiplier, MULTIPLIER, margin_ratio, account_ratio]
  · norm_num [ASSET_VALUE, priceMultiplier, MULTIPLIER, margin_ratio, account_ratio]

/-- C1 (amended): the SHORT-entry quantity is
`min(floor(available_capital/(price·price_multiplier)), 3)` in the standalone
algos (`momentum_algo`, shown here; the other three standalone variants share
the identical entry code) and on the reversion track of the hybrid `algo`;
but the hybrid `algo`'s momentum-track SHORT entry uses the uncapped
`floor(available_capital/(price·price_multiplier))`. -/
theorem short_cap_amended
    (cfgM : MomentumConfig) (sM : MState) (iM : ℕ) (pM mdM rsM atM : ℚ)
    (cfg : HybridConfig) (s : AlgoState) (i : ℕ) (p mdm rm am mdr rr ar : ℚ)
    (hs1 : sM.holdings = [])
    (hc1 : momShortEntryCond cfgM.rsiThreshold mdM rsM = true)
    (hq1 : 0 < min ⌊(sM.cash / 2) / (pM * priceMultiplier)⌋ 3)
    (hm : s.holdingsMomentum = []) (hr : s.holdingsReversion = [])
    (hcm : momShortEntryCond cfg.momentumRsiThreshold mdm rm = true)
    (hcr : revShortEntryCond mdr rr = true)
    (hqm : 0 < ⌊(s.cash / 2) / (p * priceMultiplier)⌋) :
    (processBarMCore cfgM sM iM pM mdM rsM atM).holdings.map Position.quantity =
      [min ⌊(sM.cash / 2) / (pM * priceMultiplier)⌋ 3] ∧
    (processBarCore cfg s i p mdm rm am mdr rr ar).holdingsReversion.map Position.quantity =
      [min ⌊(s.cash / 2) / (p * priceMultiplier)⌋ 3] ∧
    (processBarCore cfg s i p mdm rm am mdr rr ar).holdingsMomentum.map Position.quantity =
      [⌊(s.cash / 2) / (p * priceMultiplier)⌋] := by
  have hqr : 0 < min ⌊(s.cash / 2) / (p * priceMultiplier)⌋ 3 := lt_min hqm (by norm_num)
  refine ⟨?_, ?_, ?_⟩
  · simp only [processBarMCore, hs1, exitMomentum, List.foldl_nil]
    simp only [momentumEntryStandalone, if_pos rfl, momShort_not_long _ _ _ hc1, hc1]
    simp [hq1]
  · simp only [processBarCore, hm, hr, exitMomentum, exitReversion, List.foldl_nil]
    simp only [reversionEntry, momentumEntry, momShort_not_long _ _ _ hcm, hcm,
      revShort_not_long _ _ hcr, hcr]
    simp [hqm, hqr]
  · simp only [processBarCore, hm, hr, exitMomentum, exitReversion, List.foldl_nil]
    simp only [momentumEntry, momShort_not_long _ _ _ hcm, hcm]
    simp [hqm]

theorem short_cap_amended_witness :
    ((⟨22000000, [], []⟩ : MState).holdings = [] ∧
     momShortEntryCond (30 : ℚ) (-1) 40 = true ∧
     0 < min ⌊((22000000 : ℚ) / 2) / (450 * priceMultiplier)⌋ 3 ∧
     initState.holdingsMomentum = [] ∧ initState.holdingsReversion = [] ∧
     revShortEntryCond (-1 : ℚ) 80 = true ∧
     0 < ⌊(ASSET_VALUE / 2) / ((450 : ℚ) * priceMultiplier)⌋) ∧
    ((processBarMCore ⟨30, 2⟩ ⟨22000000, [], []⟩ 1 450 (-1) 40 1).holdings.map Position.quantity =
        [min ⌊((22000000 : ℚ) / 2) / (450 * priceMultiplier)⌋ 3] ∧
     (processBarCore ⟨30, 2, 2⟩ initState 1 450 (-1) 40 1 (-1) 80 1).holdingsReversion.map
        Position.quantity = [min ⌊(ASSET_VALUE / 2) / ((450 : ℚ) * priceMultiplier)⌋ 3] ∧
     (processBarCore ⟨30, 2, 2⟩ initState 1 450 (-1) 40 1 (-1) 80 1).holdingsMomentum.map
        Position.quantity = [⌊(ASSET_VALUE / 2) / ((450 : ℚ) * priceMultiplier)⌋]) :=
  ⟨⟨rfl,
    by norm_num [momShortEntryCond, Bool.and_eq_true, decide_eq_true_eq],
    by norm_num [priceMultiplier, MULTIPLIER, margin_ratio, account_ratio, min_def],
    rfl, rfl,
    by norm_num [revShortEntryCond, Bool.and_eq_true, decide_eq_true_eq],
    by norm_num [ASSET_VALUE, priceMultiplier, MULTIPLIER, margin_ratio, account_ratio]⟩,
   short_cap_amended ⟨30, 2⟩ ⟨22000000, [], []⟩ 1 450 (-1) 40 1 ⟨30, 2, 2⟩ initState 1
     450 (-1) 40 1 (-1) 80 1
     rfl
     (by norm_num [momShortEntryCond, Bool.and_eq_true, decide_eq_true_eq])
     (by norm_num [priceMultiplier, MULTIPLIER, margin_ratio, account_ratio, min_def])
     rfl rfl
     (by norm_num [momShortEntryCond, Bool.and_eq_true, decide_eq_true_eq])
     (by norm_num [revShortEntryCond, Bool.and_eq_true, decide_eq_true_eq])
     (by norm_num [ASSET_VALUE, initState, priceMultiplier, MULTIPLIER, margin_ratio, account_ratio])⟩

/-! ## Claims C3 and C4: same-bar reopen and round-trip cash flows -/

/-- C3: exits are applied before entries within a bar, so a track can close
its only position and reopen on the same bar.  Concretely: after bar 1 the
momentum track holds a LONG opened on bar 1 with take-profit 404; bar 2
(price 404) triggers that exit, and the same bar's entry conditions
(evaluated against the post-exit state: empty track, post-exit cash) open a
fresh LONG dated bar 2 — the track goes FLAT to IN_POSITION within bar 2. -/
theorem same_bar_reopen :
    (algoRun ⟨30, 2, 2⟩
      [⟨400, none, none, none, none, none, none⟩,
       ⟨400, some 1, some 60, some 2, some 0, some 50, some 1⟩]).holdingsMomentum =
      [⟨1, .LONG, 400, 11, 396, 404⟩] ∧
    (algoRun ⟨30, 2, 2⟩
      [⟨400, none, none, none, none, none, none⟩,
       ⟨400, some 1, some 60, some 2, some 0, some 50, some 1⟩,
       ⟨404, some 1, some 60, some 2, some 0, some 50, some 1⟩]).holdingsMomentum =
      [⟨2, .LONG, 404, 11, 400, 408⟩] := by
  constructor <;>
    norm_num [algoRun, List.enum, List.enumFrom, processBar, processBarCore, exitMomentum,
      exitReversion, momExitStep, revExitStep, markToMarket, momentumEntry, reversionEntry,
      initState, ASSET_VALUE, momLongEntryCond, momShortEntryCond, revLongEntryCond,
      revShortEntryCond, momLongExitCond, momShortExitCond, revLongExitCond, revShortExitCond,
      priceMultiplier, MULTIPLIER, margin_ratio, account_ratio, TAX]

/-- C4: LONG round-trip cash flows.  Opening a LONG with quantity
`q = floor(avail/(p·price_multiplier))` changes cash by exactly
`-q·p·price_multiplier`; closing a LONG at price `p2` changes cash by exactly
`+q·p2·price_multiplier - q·TAX·MULTIPLIER`; and the concrete round trip
(entry at 100 with quantity 5, exit at 120 via take-profit) yields
`final_cash = initial_cash - 5·100·M + 5·120·M - 5·τ·MULTIPLIER`. -/
theorem long_round_trip
    (cfg : HybridConfig) (i : ℕ) (p macd rsi atr avail cash : ℚ)
    (θ p2 rsi2 macd2 cash2 : ℚ) (pos : Position)
    (h1 : momLongEntryCond cfg.momentumRsiThreshold macd rsi = true)
    (h2 : 0 < ⌊avail / (p * priceMultiplier)⌋)
    (h3 : pos.posType = PosType.LONG)
    (h4 : momLongExitCond θ p2 rsi2 macd2 pos.stopLoss pos.takeProfit = true) :
    (momentumEntry cfg i p macd rsi atr avail cash []).1 =
      cash - ⌊avail / (p * priceMultiplier)⌋ * p * priceMultiplier ∧
    (exitMomentum θ p2 rsi2 macd2 cash2 [pos]).1 =
      cash2 + pos.quantity * p2 * priceMultiplier - pos.quantity * TAX * MULTIPLIER ∧
    (processBarCore ⟨30, 2, 2⟩
        (processBarCore ⟨30, 2, 2⟩ ⟨22000000, [], [], []⟩ 1 100 1 60 5 0 50 1)
        2 120 1 80 5 0 50 1).cash =
      22000000 - 5 * 100 * priceMultiplier + 5 * 120 * priceMultiplier - 5 * TAX * MULTIPLIER := by
  refine ⟨?_, ?_, ?_⟩
  · simp only [momentumEntry, if_pos rfl, h1]
    simp [h2]
  · rcases pos with ⟨d, ty, ep, q, sl, tp⟩
    simp only at h3
    subst h3
    simp only [exitMomentum, List.foldl_cons, List.foldl_nil, momExitStep]
    simp [h4]
  · norm_num [processBarCore, exitMomentum, exitReversion, momExitStep, revExitStep,
      markToMarket, momentumEntry, reversionEntry, momLongEntryCond, momShortEntryCond,
      revLongEntryCond, revShortEntryCond, momLongExitCond, momShortExitCond,
      revLongExitCond, revShortExitCond, priceMultiplier, MULTIPLIER, margin_ratio,
      account_ratio, TAX]

theorem long_round_trip_witness :
    (momLongEntryCond ((⟨30, 2, 2⟩ : HybridConfig).momentumRsiThreshold) 1 60 = true ∧
     0 < ⌊(11000000 : ℚ) / (100 * priceMultiplier)⌋ ∧
     (⟨1, .LONG, 100, 5, 90, 110⟩ : Position).posType = PosType.LONG ∧
     momLongExitCond 30 120 80 1 ((⟨1, .LONG, 100, 5, 90, 110⟩ : Position).stopLoss)
       ((⟨1, .LONG, 100, 5, 90, 110⟩ : Position).takeProfit) = true) ∧
    ((momentumEntry ⟨30, 2, 2⟩ 1 100 1 60 5 11000000 22000000 []).1 =
       22000000 - ⌊(11000000 : ℚ) / (100 * priceMultiplier)⌋ * 100 * priceMultiplier ∧
     (exitMomentum 30 120 80 1 11062500 [⟨1, .LONG, 100, 5, 90, 110⟩]).1 =
       11062500 + (5 : ℤ) * 120 * priceMultiplier - (5 : ℤ) * TAX * MULTIPLIER ∧
     (processBarCore ⟨30, 2, 2⟩
         (processBarCore ⟨30, 2, 2⟩ ⟨22000000, [], [], []⟩ 1 100 1 60 5 0 50 1)
         2 120 1 80 5 0 50 1).cash =
       22000000 - 5 * 100 * priceMultiplier + 5 * 120 * priceMultiplier - 5 * TAX * MULTIPLIER) :=
  ⟨⟨by norm_num [momLongEntryCond, Bool.and_eq_true, decide_eq_true_eq],
    by norm_num [priceMultiplier, MULTIPLIER, margin_ratio, account_ratio],
    rfl,
    by norm_num [momLongExitCond, Bool.or_eq_true, decide_eq_true_eq]⟩,
   long_round_trip ⟨30, 2, 2⟩ 1 100 1 60 5 11000000 22000000 30 120 80 1 11062500
     ⟨1, .LONG, 100, 5, 90, 110⟩
     (by norm_num [momLongEntryCond, Bool.and_eq_true, decide_eq_true_eq])
     (by norm_num [priceMultiplier, MULTIPLIER, margin_ratio, account_ratio])
     rfl
     (by norm_num [momLongExitCond, Bool.or_eq_true, decide_eq_true_eq])⟩

end Group04
